import Mathlib

/-!
# Pothos::Block

A shallow embedding of `lib/Framework/Block.cpp`: the callable registry, the
port tables kept by the worker actor, call dispatch at the block boundary
(`opaqueCallHandler`, `opaqueCallMethod`), port reflection
(`inputPortInfo`, `outputPortInfo`), label propagation, thread-pool
rebinding (`setThreadPool`) and the destructor; and of the option handler
`handleOption` of `apps/PothosUtil.cpp`.

Conventions of the embedding

* A `std::map<std::string, T>` is a key-ordered association list
  (`mapFind`, `mapSet`, `mapModify`).
* A C++ method that can throw returns an `Except Exception _`; a method that
  throws after having written to members returns the written state next to
  the error.
* A pointer/length argument pair `(inputArgs, numArgs)` is a list.
* Object identity of actors is an address drawn from an `ActorHeap`.
-/

set_option autoImplicit false

namespace Pothos

/-! ## Values, errors and callables -/

/-- The type-erased container `Pothos::Object`: `Object()` is `null`,
`Object(ObjectVector)` is `vector`; `scalar` stands for any other payload. -/
inductive Object where
  | null : Object
  | scalar (v : Int) : Object
  | vector (elems : List Object) : Object

instance : Inhabited Object := ⟨Object.null⟩

/-- The `ObjectVector` of `Pothos/Object/Containers.hpp`. -/
abbrev ObjectVector := List Object

/-- The errors that cross the block boundary.  `BlockCallNotFound` and
`PortAccessError` carry the two strings of a `Pothos::Exception`
(source and message), `InvalidArgumentException` its message; `Error` is
any other exception, for instance one raised by user code inside a
registered handle or by an allocation. -/
inductive Exception where
  | BlockCallNotFound (source message : String) : Exception
  | PortAccessError (source message : String) : Exception
  | InvalidArgumentException (message : String) : Exception
  | Error (what : String) : Exception
  deriving DecidableEq

/-- Whether an error is of class `BlockCallNotFound`. -/
def Exception.isBlockCallNotFound : Exception → Bool
  | Exception.BlockCallNotFound _ _ => true
  | _ => false

/-- Modelled from the spec: the class `Callable` is declared outside
`Block.cpp`.  A registry entry is an invokable handle with its declared
argument count; invoking it on an argument list yields an object or raises. -/
structure Callable where
  numArgs : Nat
  invoke : ObjectVector → Except Exception Object

/-- The accessor `Callable::getNumArgs`. -/
def Callable.getNumArgs (call : Callable) : Nat := call.numArgs

/-- The call `Callable::opaqueCall(inputArgs, numArgs)`. -/
def Callable.opaqueCall (call : Callable) (inputArgs : ObjectVector) : Except Exception Object :=
  call.invoke inputArgs

/-! ## Ordered maps -/

/-- The lookup `std::map::find`: the value stored under `key`, if any. -/
def mapFind {α : Type} (key : String) : List (String × α) → Option α
  | [] => none
  | (k, v) :: rest => if key = k then some v else mapFind key rest

/-- The comparison `std::less<std::string>` on the characters of two keys:
lexicographic, a proper prefix coming first. -/
def keyLess : List Char → List Char → Bool
  | _, [] => false
  | [], _ :: _ => true
  | a :: as, b :: bs =>
    if a.toNat < b.toNat then true
    else if b.toNat < a.toNat then false
    else keyLess as bs

/-- The assignment `m[key] = value` of a `std::map`: overwrite the entry of
`key`, or insert a new entry at its place in key order. -/
def mapSet {α : Type} (key : String) (value : α) : List (String × α) → List (String × α)
  | [] => [(key, value)]
  | (k, v) :: rest =>
    if key = k then (key, value) :: rest
    else if keyLess key.data k.data then (key, value) :: (k, v) :: rest
    else (k, v) :: mapSet key value rest

/-- An in-place update through the pointer stored under `key`
(`m.find(key)->second->...`): the pointee changes, the map's keys do not. -/
def mapModify {α : Type} (key : String) (f : α → α) : List (String × α) → List (String × α)
  | [] => []
  | (k, v) :: rest => if key = k then (k, f v) :: rest else (k, v) :: mapModify key f rest

/-! ## Ports -/

/-- The data type descriptor `DType`, given by its markup name (`"byte"`,
`"float32"`, and the empty string for the unspecified type). -/
abbrev DType := String

/-- Modelled from the spec: a `Label` is a metadata annotation attached to
the stream, here a payload object and a stream index. -/
structure Label where
  data : Object
  index : Nat

/-- Modelled from the spec: an `InputPort` is a named, typed endpoint with a
domain tag, a slot flag and a queue of labels (`labels()`). -/
structure InputPort where
  name : String
  dtype : DType
  domain : String
  isSlot : Bool
  labels : List Label

/-- Modelled from the spec: an `OutputPort` is a named, typed endpoint with a
domain tag, a signal flag, the labels posted for downstream propagation and
the messages posted for asynchronous delivery. -/
structure OutputPort where
  name : String
  dtype : DType
  domain : String
  isSignal : Bool
  postedLabels : List Label
  postedMessages : List Object

/-- Modelled from the spec: `OutputPort::postLabel` queues the label on the
port, behind the labels already posted. -/
def OutputPort.postLabel (port : OutputPort) (label : Label) : OutputPort :=
  { port with postedLabels := port.postedLabels ++ [label] }

/-- Modelled from the spec: `OutputPort::postMessage` posts one message
object onto the port for asynchronous delivery. -/
def OutputPort.postMessage (port : OutputPort) (message : Object) : OutputPort :=
  { port with postedMessages := port.postedMessages ++ [message] }

/-- A port descriptor `PortInfo` as filled in by the reflection calls. -/
structure PortInfo where
  name : String
  isSigSlot : Bool
  dtype : DType
  deriving DecidableEq

/-! ## Thread pools and actors -/

/-- Modelled from the spec: a `ThreadPool` is a shareable wrapper around an
underlying execution context.  Two wrappers (`wrapper` tells them apart) may
share one `context`. -/
structure ThreadPool where
  wrapper : Nat
  context : Nat
  deriving DecidableEq

/-- Modelled from the spec: `operator==` on thread pools compares the
underlying contexts, not the wrappers. -/
def ThreadPool.eq (lhs rhs : ThreadPool) : Bool := lhs.context == rhs.context

/-- The actor behind a block (`Framework/WorkerActor.hpp`): its address in
the Theron framework, the context it is scheduled on, the activation flag,
the yield flag `workBump`, and the port tables `inputs` and `outputs`. -/
structure WorkerActor where
  address : Nat
  framework : Nat
  activeState : Bool
  workBump : Bool
  inputs : List (String × InputPort)
  outputs : List (String × OutputPort)

/-- The bookkeeping of actor objects: the next unused address and the
addresses of the actors that are constructed and not yet released. -/
structure ActorHeap where
  nextAddress : Nat
  live : List Nat
  deriving DecidableEq

/-- The block `Pothos::Block` with the members `Block.cpp` reads and writes. -/
structure Block where
  _threadPool : ThreadPool
  _actor : WorkerActor
  _calls : List (String × Callable)
  _inputPortNames : List String
  _outputPortNames : List String

/-- Modelled from the spec: a freshly constructed actor is inactive, has no
yield pending and mediates no port yet. -/
def WorkerActor.fresh (address framework : Nat) : WorkerActor :=
  { address := address, framework := framework, activeState := false, workBump := false,
    inputs := [], outputs := [] }

/-- The expression `new WorkerActor(this)`: the constructor binds the actor to
the framework of the block's current thread pool.  `failure` tells for each
pool which error, if any, the construction raises there. -/
def newWorkerActor (failure : ThreadPool → Option Exception) (block : Block) (heap : ActorHeap) :
    Except Exception (WorkerActor × ActorHeap) :=
  match failure block._threadPool with
  | some e => Except.error e
  | none =>
    Except.ok (WorkerActor.fresh heap.nextAddress block._threadPool.context,
      { nextAddress := heap.nextAddress + 1, live := heap.live ++ [heap.nextAddress] })

/-- The release of the last reference to an actor (`oldActor.reset()`). -/
def ActorHeap.release (heap : ActorHeap) (address : Nat) : ActorHeap :=
  { heap with live := heap.live.filter (fun a => a != address) }

/-- Modelled from the spec: `WorkerActor::swap(oldActor)` makes the new actor
adopt all state of the current one (ports, activation flag, pending yield
flag); address and framework stay those of the new actor. -/
def WorkerActor.swap (self oldActor : WorkerActor) : WorkerActor :=
  { self with activeState := oldActor.activeState, workBump := oldActor.workBump,
              inputs := oldActor.inputs, outputs := oldActor.outputs }

/-- Modelled from the spec: `WorkerActor::allocateInput` allocates a new
input port with the given identity and records its name in declaration
order; a name is unique within its direction, so allocating a name that is
already present creates nothing. -/
def WorkerActor.allocateInput (b : Block) (name : String) (dtype : DType) (domain : String) : Block :=
  match mapFind name b._actor.inputs with
  | some _ => b
  | none =>
    { b with
      _actor := { b._actor with
        inputs := mapSet name
          { name := name, dtype := dtype, domain := domain, isSlot := false, labels := [] }
          b._actor.inputs }
      _inputPortNames := b._inputPortNames ++ [name] }

/-- Modelled from the spec: `WorkerActor::allocateOutput`, the output-side
twin of `allocateInput`. -/
def WorkerActor.allocateOutput (b : Block) (name : String) (dtype : DType) (domain : String) : Block :=
  match mapFind name b._actor.outputs with
  | some _ => b
  | none =>
    { b with
      _actor := { b._actor with
        outputs := mapSet name
          { name := name, dtype := dtype, domain := domain, isSignal := false,
            postedLabels := [], postedMessages := [] }
          b._actor.outputs }
      _outputPortNames := b._outputPortNames ++ [name] }

/-- Modelled from the spec: `WorkerActor::allocateSignal` allocates a
signal-flagged output port (of unspecified type); idempotent. -/
def WorkerActor.allocateSignal (b : Block) (name : String) : Block :=
  let b1 := WorkerActor.allocateOutput b name "" ""
  { b1 with _actor := { b1._actor with
      outputs := mapModify name (fun port => { port with isSignal := true }) b1._actor.outputs } }

/-- Modelled from the spec: `WorkerActor::allocateSlot` allocates a
slot-flagged input port (of unspecified type); idempotent. -/
def WorkerActor.allocateSlot (b : Block) (name : String) : Block :=
  let b1 := WorkerActor.allocateInput b name "" ""
  { b1 with _actor := { b1._actor with
      inputs := mapModify name (fun port => { port with isSlot := true }) b1._actor.inputs } }

namespace Block

/-! ## Block members (`Block.cpp`) -/

/-- The block value the constructor `Block::Block` leaves once
`new WorkerActor(this)` has returned the actor at `address`: the default
thread pool, no call, no port. -/
def fresh (globalPool : ThreadPool) (address : Nat) : Block :=
  { _threadPool := globalPool, _actor := WorkerActor.fresh address globalPool.context,
    _calls := [], _inputPortNames := [], _outputPortNames := [] }

/-- The method `Block::setThreadPool` (lines 19-31).  The result carries the
members as they stand when the method returns or throws. -/
def setThreadPool (failure : ThreadPool → Option Exception) (b : Block) (heap : ActorHeap)
    (threadPool : ThreadPool) : Except Exception Unit × Block × ActorHeap :=
  if ThreadPool.eq b._threadPool threadPool then (Except.ok (), b, heap)
  else
    let oldActor := b._actor
    let b1 := { b with _threadPool := threadPool }
    match newWorkerActor failure b1 heap with
    | Except.error e => (Except.error e, b1, heap)
    | Except.ok (actor, heap1) =>
      (Except.ok (), { b1 with _actor := actor.swap oldActor }, heap1.release oldActor.address)

/-- The method `Block::getThreadPool` (lines 33-36). -/
def getThreadPool (b : Block) : ThreadPool := b._threadPool

/-- The method `Block::propagateLabels` (lines 74-84): for every entry of
`allOutputs()`, post every label of `input` in queue order. -/
def propagateLabels (b : Block) (input : InputPort) : Block :=
  { b with _actor := { b._actor with
      outputs := b._actor.outputs.map
        (fun entry => (entry.1, input.labels.foldl OutputPort.postLabel entry.2)) } }

/-- The method `Block::isActive` (lines 93-96). -/
def isActive (b : Block) : Bool := b._actor.activeState

/-- The method `Block::setupInput` by name (lines 98-101). -/
def setupInput (b : Block) (name : String) (dtype : DType) (domain : String) : Block :=
  WorkerActor.allocateInput b name dtype domain

/-- The method `Block::setupInput` by index (lines 103-106). -/
def setupInputIndex (b : Block) (index : Nat) (dtype : DType) (domain : String) : Block :=
  b.setupInput (toString index) dtype domain

/-- The method `Block::setupOutput` by name (lines 108-111). -/
def setupOutput (b : Block) (name : String) (dtype : DType) (domain : String) : Block :=
  WorkerActor.allocateOutput b name dtype domain

/-- The method `Block::setupOutput` by index (lines 113-116). -/
def setupOutputIndex (b : Block) (index : Nat) (dtype : DType) (domain : String) : Block :=
  b.setupOutput (toString index) dtype domain

/-- The method `Block::registerSignal` (lines 124-127). -/
def registerSignal (b : Block) (name : String) : Block :=
  WorkerActor.allocateSignal b name

/-- The method `Block::registerSlot` (lines 129-132). -/
def registerSlot (b : Block) (name : String) : Block :=
  WorkerActor.allocateSlot b name

/-- The method `Block::registerCallable` (lines 118-122). -/
def registerCallable (b : Block) (name : String) (call : Callable) : Block :=
  let b1 := { b with _calls := mapSet name call b._calls }
  if call.getNumArgs > 0 then b1.registerSlot name else b1

/-- The error thrown on a registry miss (lines 139 and 159). -/
def callNotFound (name : String) : Exception :=
  Exception.BlockCallNotFound ("Pothos::Block::call(" ++ name ++ ")") "method does not exist in registry"

/-- The method `Block::opaqueCallHandler` (lines 134-142). -/
def opaqueCallHandler (b : Block) (name : String) (inputArgs : ObjectVector) : Except Exception Object :=
  match mapFind name b._calls with
  | none => Except.error (callNotFound name)
  | some call => call.opaqueCall inputArgs

end Block

/-- The message `OpaqueCallMessage` sent to the actor. -/
structure OpaqueCallMessage where
  name : String
  inputArgs : ObjectVector
  numArgs : Nat

/-- The reply `OpaqueCallResultMessage`: a result object and an error slot
that is empty when the call raised nothing. -/
structure OpaqueCallResultMessage where
  obj : Object
  error : Option Exception

/-- What one `opaqueCallMethod` invocation does: the value returned or the
error thrown, the messages handed to the framework (destination actor
address and message, in sending order), and the block with its ports after
the call. -/
structure CallOutcome where
  result : Except Exception Object
  sent : List (Nat × OpaqueCallMessage)
  block : Block

namespace Block

/-- The method `Block::opaqueCallMethod` (lines 144-173).  `waitInfo` is the
reply the receiver obtains for the message it sent (`receiver.WaitInfo()`). -/
def opaqueCallMethod (waitInfo : OpaqueCallMessage → OpaqueCallResultMessage) (b : Block)
    (name : String) (inputArgs : ObjectVector) : CallOutcome :=
  match (mapFind name b._actor.outputs).filter (fun out => out.isSignal) with
  | some _ =>
    { result := Except.ok Object.null
      sent := []
      block := { b with _actor := { b._actor with
        outputs := mapModify name (fun out => out.postMessage (Object.vector inputArgs))
          b._actor.outputs } } }
  | none =>
    match mapFind name b._calls with
    | none => { result := Except.error (callNotFound name), sent := [], block := b }
    | some _ =>
      let message : OpaqueCallMessage :=
        { name := name, inputArgs := inputArgs, numArgs := inputArgs.length }
      let result := waitInfo message
      { result := match result.error with
          | some e => Except.error e
          | none => Except.ok result.obj
        sent := [(b._actor.address, message)]
        block := b }

/-- Modelled from the spec: the accessor `Block::input(name)` yields the
owned input port of that name and raises a port access error when the block
owns none. -/
def input (b : Block) (name : String) : Except Exception InputPort :=
  match mapFind name b._actor.inputs with
  | some port => Except.ok port
  | none =>
    Except.error
      (Exception.PortAccessError ("Pothos::Block::input(" ++ name ++ ")") "input port name does not exist")

/-- Modelled from the spec: the accessor `Block::output(name)`, the
output-side twin of `input`. -/
def output (b : Block) (name : String) : Except Exception OutputPort :=
  match mapFind name b._actor.outputs with
  | some port => Except.ok port
  | none =>
    Except.error
      (Exception.PortAccessError ("Pothos::Block::output(" ++ name ++ ")") "output port name does not exist")

/-- The loop of `inputPortInfo` (lines 193-200) over the names still to
visit, `infos` being the vector filled so far. -/
def inputPortInfoLoop (b : Block) : List String → List PortInfo → Except Exception (List PortInfo)
  | [], infos => Except.ok infos
  | name :: names, infos =>
    match b.input name with
    | Except.error e => Except.error e
    | Except.ok port =>
      inputPortInfoLoop b names (infos ++ [{ name := name, isSigSlot := port.isSlot, dtype := port.dtype }])

/-- The method `Block::inputPortInfo` (lines 190-202): the descriptors, and
the block as the method leaves it. -/
def inputPortInfo (b : Block) : Except Exception (List PortInfo) × Block :=
  (inputPortInfoLoop b b._inputPortNames [], b)

/-- The loop of `outputPortInfo` (lines 207-214). -/
def outputPortInfoLoop (b : Block) : List String → List PortInfo → Except Exception (List PortInfo)
  | [], infos => Except.ok infos
  | name :: names, infos =>
    match b.output name with
    | Except.error e => Except.error e
    | Except.ok port =>
      outputPortInfoLoop b names (infos ++ [{ name := name, isSigSlot := port.isSignal, dtype := port.dtype }])

/-- The method `Block::outputPortInfo` (lines 204-216). -/
def outputPortInfo (b : Block) : Except Exception (List PortInfo) × Block :=
  (outputPortInfoLoop b b._outputPortNames [], b)

end Block

/-- Modelled from the spec: how the actor answers an opaque-call message.
It looks the name up in the registry and invokes the handle in its own
context (`opaqueCallHandler`); the result, or the error captured at the point
of execution, goes into the reply. -/
def WorkerActor.handleOpaqueCall (b : Block) (message : OpaqueCallMessage) : OpaqueCallResultMessage :=
  match b.opaqueCallHandler message.name message.inputArgs with
  | Except.ok obj => { obj := obj, error := none }
  | Except.error e => { obj := Object.null, error := some e }

/-! ## Sequences of configuration calls -/

/-- The handle most recently registered under `name` by the calls of
`regs` (made in list order), if there is one. -/
def lastRegistered (name : String) : List (String × Callable) → Option Callable
  | [] => none
  | (key, call) :: rest =>
    match lastRegistered name rest with
    | some later => some later
    | none => if name = key then some call else none

/-- Whether a call outcome is a failure of class `BlockCallNotFound`. -/
def failsNotFound (outcome : Except Exception Object) : Bool :=
  match outcome with
  | Except.error e => e.isBlockCallNotFound
  | Except.ok _ => false


/-- The block after the calls `registerCallable(name, call)` of `regs`,
made in list order. -/
def registerAll (b : Block) (regs : List (String × Callable)) : Block :=
  regs.foldl (fun blk reg => blk.registerCallable reg.1 reg.2) b

/-- Every registered call with one or more arguments has a slot-flagged
input port of the same name. -/
def CallsHaveSlots (b : Block) : Prop :=
  ∀ (name : String) (call : Callable), mapFind name b._calls = some call → 0 < call.getNumArgs →
    ∃ port, mapFind name b._actor.inputs = some port ∧ port.isSlot = true

/-- One port declaration: `setupInput(name, dtype, domain)` or
`setupOutput(name, dtype, domain)`. -/
inductive SetupCall where
  | input (name : String) (dtype : DType) (domain : String) : SetupCall
  | output (name : String) (dtype : DType) (domain : String) : SetupCall

/-- The declaration made by `setupInput(index, dtype, domain)`. -/
def SetupCall.inputIndex (index : Nat) (dtype : DType) (domain : String) : SetupCall :=
  SetupCall.input (toString index) dtype domain

/-- The declaration made by `setupOutput(index, dtype, domain)`. -/
def SetupCall.outputIndex (index : Nat) (dtype : DType) (domain : String) : SetupCall :=
  SetupCall.output (toString index) dtype domain

/-- The block after one port declaration. -/
def SetupCall.run (b : Block) : SetupCall → Block
  | SetupCall.input name dtype domain => b.setupInput name dtype domain
  | SetupCall.output name dtype domain => b.setupOutput name dtype domain

/-- The block after the port declarations of `calls`, made in list order. -/
def setupAll (b : Block) (calls : List SetupCall) : Block :=
  calls.foldl SetupCall.run b

/-- The input declarations of a call sequence, in call order. -/
def declaredInputs : List SetupCall → List (String × DType × String)
  | [] => []
  | SetupCall.input name dtype domain :: rest => (name, dtype, domain) :: declaredInputs rest
  | SetupCall.output _ _ _ :: rest => declaredInputs rest

/-- The output declarations of a call sequence, in call order. -/
def declaredOutputs : List SetupCall → List (String × DType × String)
  | [] => []
  | SetupCall.input _ _ _ :: rest => declaredOutputs rest
  | SetupCall.output name dtype domain :: rest => (name, dtype, domain) :: declaredOutputs rest

/-- The descriptor expected for a declaration made by a setup call: its
name and dtype, and a cleared signal/slot flag. -/
def declaredInfo (decl : String × DType × String) : PortInfo :=
  { name := decl.1, isSigSlot := false, dtype := decl.2.1 }

/-- The input port a declaration creates. -/
def declaredInput (decl : String × DType × String) : InputPort :=
  { name := decl.1, dtype := decl.2.1, domain := decl.2.2, isSlot := false, labels := [] }

/-- The output port a declaration creates. -/
def declaredOutput (decl : String × DType × String) : OutputPort :=
  { name := decl.1, dtype := decl.2.1, domain := decl.2.2, isSignal := false,
    postedLabels := [], postedMessages := [] }

/-- The block's input side holds exactly the declarations `decls`: the
ordered name list, one port per declaration, and no other port. -/
def InputsDeclared (b : Block) (decls : List (String × DType × String)) : Prop :=
  b._inputPortNames = decls.map Prod.fst ∧
  (∀ decl ∈ decls, mapFind decl.1 b._actor.inputs = some (declaredInput decl)) ∧
  (∀ name, name ∉ decls.map Prod.fst → mapFind name b._actor.inputs = none)

/-- The block's output side holds exactly the declarations `decls`. -/
def OutputsDeclared (b : Block) (decls : List (String × DType × String)) : Prop :=
  b._outputPortNames = decls.map Prod.fst ∧
  (∀ decl ∈ decls, mapFind decl.1 b._actor.outputs = some (declaredOutput decl)) ∧
  (∀ name, name ∉ decls.map Prod.fst → mapFind name b._actor.outputs = none)

/-! ## The actor's mailbox and the destructor -/

/-- Modelled from the spec: `WorkStats` is a snapshot of the work-loop
counters. -/
structure WorkStats where
  numWorkCalls : Nat
  deriving DecidableEq

/-- The messages `Block.cpp` sends to the actor: `OpaqueCallMessage`
(line 168), `RequestWorkerStatsMessage` (line 89) and
`ShutdownActorMessage` (line 54). -/
inductive ActorMessage where
  | opaqueCall (message : OpaqueCallMessage) : ActorMessage
  | requestWorkerStats : ActorMessage
  | shutdownActor : ActorMessage

/-- Whether a message is the shutdown message. -/
def ActorMessage.isShutdown : ActorMessage → Bool
  | ActorMessage.shutdownActor => true
  | _ => false

/-- A message in the actor's mailbox together with the address of the
receiver that awaits the reply (`receiver.GetAddress()`). -/
structure Envelope where
  replyTo : Nat
  message : ActorMessage

/-- What the actor sends back to a receiver. -/
inductive ActorReply where
  | opaqueCallResult (reply : OpaqueCallResultMessage) : ActorReply
  | workStats (stats : WorkStats) : ActorReply
  | shutdownDone : ActorReply

/-- The observable steps of a block and its actor: a message handed to the
framework for an actor, a message completed by the actor and answered to a
receiver, and the release of an actor. -/
inductive Event where
  | sent (actor : Nat) (envelope : Envelope) : Event
  | replied (receiver : Nat) (reply : ActorReply) : Event
  | released (actor : Nat) : Event

/-- Modelled from the spec: how the actor completes one message.  An opaque
call is dispatched through the registry, a stats request is answered with
the current snapshot, a shutdown is acknowledged. -/
def WorkerActor.handle (b : Block) (stats : WorkStats) : ActorMessage → ActorReply
  | ActorMessage.opaqueCall message => ActorReply.opaqueCallResult (WorkerActor.handleOpaqueCall b message)
  | ActorMessage.requestWorkerStats => ActorReply.workStats stats
  | ActorMessage.shutdownActor => ActorReply.shutdownDone

/-- The reply event by which the actor completes an envelope. -/
def WorkerActor.complete (b : Block) (stats : WorkStats) (envelope : Envelope) : Event :=
  Event.replied envelope.replyTo (WorkerActor.handle b stats envelope.message)

/-- Modelled from the spec: `receiver.Wait()` while the actor serves its
mailbox.  The actor completes the queued messages one at a time in queue
order; the wait ends with the first reply that reaches `receiver`.  Once
the actor has taken a shutdown it processes nothing further, and an
exhausted mailbox yields no further reply: in both cases the wait never
ends (`none`).  The result lists the messages completed during the wait. -/
def waitReply (b : Block) (stats : WorkStats) (receiver : Nat) : List Envelope → Option (List Event)
  | [] => none
  | envelope :: rest =>
    if envelope.replyTo = receiver then some [WorkerActor.complete b stats envelope]
    else if envelope.message.isShutdown then none
    else (waitReply b stats receiver rest).map (fun events => WorkerActor.complete b stats envelope :: events)

namespace Block

/-- The destructor `Block::~Block` (lines 48-57), run while `mailbox` holds
the messages queued at the actor and not yet completed: it sends the
shutdown message with the address of its own `receiver`, waits for the
reply, then releases the actor.  The result is the sequence of events up to
the release and the actor bookkeeping after it; `none` when the wait never
ends. -/
def destructor (b : Block) (heap : ActorHeap) (stats : WorkStats) (receiver : Nat)
    (mailbox : List Envelope) : Option (List Event × ActorHeap) :=
  let message : Envelope := { replyTo := receiver, message := ActorMessage.shutdownActor }
  match waitReply b stats receiver (mailbox ++ [message]) with
  | none => none
  | some completed =>
    some (Event.sent b._actor.address message :: completed ++ [Event.released b._actor.address],
      heap.release b._actor.address)

/-- The method `Block::workStats` (lines 86-91): the message it sends. -/
def workStatsMessage (receiver : Nat) : Envelope :=
  { replyTo := receiver, message := ActorMessage.requestWorkerStats }

end Block

/-! ## The command-line utility (`apps/PothosUtil.cpp`) -/

/-- The search `std::string::find` for a one-character pattern: the position
of the first occurrence, `none` standing for `npos`. -/
def findChar (c : Char) : List Char → Option Nat
  | [] => none
  | x :: rest => if x = c then some 0 else (findChar c rest).map (fun pos => pos + 1)

/-- An option declaration of `defineOptions`, with the attributes set on it
there. -/
structure OptionDecl where
  fullName : String
  required : Bool
  repeatable : Bool
  argument : String
  binding : String
  deriving DecidableEq

/-- The declaration of `--var` (lines 96-104); its help text names the
format `--var=name:value`. -/
def varOption : OptionDecl :=
  { fullName := "var", required := false, repeatable := true, argument := "variable",
    binding := "variable" }

/-- The application object `PothosUtil` with the members `handleOption`
writes: the four request flags, the ordered variable list `_vars` of the
base class, and whether option processing has been stopped. -/
structure PothosUtil where
  _helpRequested : Bool
  _docParseRequested : Bool
  _deviceInfoRequested : Bool
  _runTopologyRequested : Bool
  _vars : List (String × String)
  optionsProcessingStopped : Bool

/-- The error thrown for a `--var` value without a colon (lines 156-157). -/
def cannotParseVar (value : String) : Exception :=
  Exception.InvalidArgumentException
    ("Cannot parse --var=" ++ value ++ ", expected --var=name:value format")

/-- The method `PothosUtil::handleOption` (lines 143-160): the outcome and
the members as they stand when it returns or throws.  The call into the
Poco base class on line 145 writes the Poco configuration only, which is
not among these members. -/
def PothosUtil.handleOption (app : PothosUtil) (name value : String) :
    Except Exception Unit × PothosUtil :=
  let app1 := if name = "help" then { app with _helpRequested := true } else app
  let app2 := if name = "doc-parse" then { app1 with _docParseRequested := true } else app1
  let app3 := if name = "device-info" then { app2 with _deviceInfoRequested := true } else app2
  let app4 := if name = "run-topology" then { app3 with _runTopologyRequested := true } else app3
  let app5 := if name = "help" then { app4 with optionsProcessingStopped := true } else app4
  if name = "var" then
    match findChar ':' value.data with
    | none => (Except.error (cannotParseVar value), app5)
    | some pos =>
      (Except.ok (),
        { app5 with _vars := app5._vars ++
            [(String.mk (value.data.take pos), String.mk (value.data.drop (pos + 1)))] })
  else (Except.ok (), app5)

/-- The constructor `PothosUtil(int argc)` (lines 18-28): help is requested
when the program is started without arguments; no variable is stored yet. -/
def PothosUtil.construct (argc : Int) : PothosUtil :=
  { _helpRequested := decide (argc ≤ 1), _docParseRequested := false,
    _deviceInfoRequested := false, _runTopologyRequested := false, _vars := [],
    optionsProcessingStopped := false }

/-! ## Sample data -/

/-- A one-argument handle that accepts any gain and returns nothing. -/
def setGainHandle : Callable :=
  { numArgs := 1, invoke := fun _ => Except.ok Object.null }

/-- A zero-argument handle returning a fixed reading. -/
def getGainHandle : Callable :=
  { numArgs := 0, invoke := fun _ => Except.ok (Object.scalar 7) }

/-- The default thread pool of the samples. -/
def globalPool : ThreadPool := { wrapper := 0, context := 0 }

/-- A configured block: input `in0`, output `out0`, signal `changed`, and the
calls `setGain` (one argument) and `getGain` (no argument). -/
def sampleBlock : Block :=
  ((((((Block.fresh globalPool 0).setupInput "in0" "float32" "").setupOutput "out0" "float32" "").registerSignal
    "changed").registerCallable "setGain" setGainHandle).registerCallable "getGain" getGainHandle)

/-- The actor bookkeeping that goes with a block at address 0: one live
actor, the next address unused. -/
def sampleHeap : ActorHeap := { nextAddress := 1, live := [0] }

/-- Another wrapper around the context of `globalPool`. -/
def sharedPool : ThreadPool := { wrapper := 1, context := 0 }

/-- A pool on a context of its own. -/
def privatePool : ThreadPool := { wrapper := 2, context := 1 }

/-- An input port holding two labels. -/
def labelledInput : InputPort :=
  { name := "in0", dtype := "float32", domain := "", isSlot := false,
    labels := [{ data := Object.scalar 1, index := 0 }, { data := Object.scalar 2, index := 5 }] }

/-- A handle whose body itself runs into a missing call, as when it calls a
method of another block that is not registered there. -/
def forwardingHandle : Callable :=
  { numArgs := 0, invoke := fun _ => Except.error (Block.callNotFound "remote") }

/-- The construction oracle under which constructing an actor on
`privatePool` raises an allocation error. -/
def privateFails : ThreadPool → Option Exception :=
  fun pool => if pool = privatePool then some (Exception.Error "std::bad_alloc") else none

/-- Two calls in flight when the block is destroyed: `getGain` awaited by
receiver 11 and a stats request awaited by receiver 12. -/
def sampleMailbox : List Envelope :=
  [{ replyTo := 11,
     message := ActorMessage.opaqueCall { name := "getGain", inputArgs := [], numArgs := 0 } },
   Block.workStatsMessage 12]

/-- A stats snapshot. -/
def sampleStats : WorkStats := { numWorkCalls := 3 }

/-- An actor that answers every call with the null object. -/
def nullReply : OpaqueCallMessage → OpaqueCallResultMessage :=
  fun _ => { obj := Object.null, error := none }

/-! ## Lemmas on ordered maps -/

theorem mapFind_mapSet_self {α : Type} (key : String) (value : α) (m : List (String × α)) :
    mapFind key (mapSet key value m) = some value := by
  induction m with
  | nil => simp [mapSet, mapFind]
  | cons entry rest ih =>
    obtain ⟨k, v⟩ := entry
    unfold mapSet
    split_ifs with h1 h2
    · simp [mapFind]
    · simp [mapFind]
    · simp [mapFind, h1, ih]

theorem mapFind_mapSet_other {α : Type} (key other : String) (value : α) (m : List (String × α))
    (h : other ≠ key) : mapFind other (mapSet key value m) = mapFind other m := by
  induction m with
  | nil => simp [mapSet, mapFind, h]
  | cons entry rest ih =>
    obtain ⟨k, v⟩ := entry
    unfold mapSet
    split_ifs with h1 h2
    · subst h1; simp [mapFind, h]
    · simp [mapFind, h]
    · simp [mapFind, ih]

theorem mapFind_mapModify_self {α : Type} (key : String) (f : α → α) (m : List (String × α)) :
    mapFind key (mapModify key f m) = (mapFind key m).map f := by
  induction m with
  | nil => simp [mapModify, mapFind]
  | cons entry rest ih =>
    obtain ⟨k, v⟩ := entry
    unfold mapModify
    split_ifs with h1
    · simp [mapFind, h1]
    · simp [mapFind, h1, ih]

theorem mapFind_mapModify_other {α : Type} (key other : String) (f : α → α) (m : List (String × α))
    (h : other ≠ key) : mapFind other (mapModify key f m) = mapFind other m := by
  induction m with
  | nil => simp [mapModify, mapFind]
  | cons entry rest ih =>
    obtain ⟨k, v⟩ := entry
    unfold mapModify
    split_ifs with h1
    · subst h1; simp [mapFind, h]
    · simp [mapFind, ih]

theorem mapModify_keys {α : Type} (key : String) (f : α → α) (m : List (String × α)) :
    (mapModify key f m).map Prod.fst = m.map Prod.fst := by
  induction m with
  | nil => simp [mapModify]
  | cons entry rest ih =>
    obtain ⟨k, v⟩ := entry
    unfold mapModify
    split_ifs with h1
    · simp
    · simp [ih]

/-! ## Call dispatch at the block boundary -/

/-- C1: for every block state (whatever its activation flag) and every name
that has no registry entry and does not name a signal-flagged output port,
`opaqueCallMethod` fails with `BlockCallNotFound` for every argument list;
it does so before anything is sent to the actor (nothing is sent, whatever
the actor would have replied), and the block is left as it was. -/
theorem opaqueCallMethod_unregistered (waitInfo : OpaqueCallMessage → OpaqueCallResultMessage)
    (b : Block) (name : String) (inputArgs : ObjectVector)
    (hcall : mapFind name b._calls = none)
    (hsignal : ∀ out, mapFind name b._actor.outputs = some out → out.isSignal = false) :
    (b.opaqueCallMethod waitInfo name inputArgs).result = Except.error (Block.callNotFound name) ∧
    (Block.callNotFound name).isBlockCallNotFound = true ∧
    (b.opaqueCallMethod waitInfo name inputArgs).sent = [] ∧
    (b.opaqueCallMethod waitInfo name inputArgs).block = b := by
  have hfilter : (mapFind name b._actor.outputs).filter (fun out => out.isSignal) = none := by
    cases hout : mapFind name b._actor.outputs with
    | none => rfl
    | some out => simp [Option.filter, hsignal out hout]
  simp [Block.opaqueCallMethod, hfilter, hcall, Block.callNotFound, Exception.isBlockCallNotFound]

/-- C1 at the sample block: the plain output `out0` is neither a call nor a
signal, and the block is active or not alike. -/
theorem opaqueCallMethod_unregistered_witness :
    (sampleBlock.opaqueCallMethod nullReply "out0" [Object.scalar 1]).result
        = Except.error (Block.callNotFound "out0") ∧
    (Block.callNotFound "out0").isBlockCallNotFound = true ∧
    (sampleBlock.opaqueCallMethod nullReply "out0" [Object.scalar 1]).sent = [] ∧
    (sampleBlock.opaqueCallMethod nullReply "out0" [Object.scalar 1]).block = sampleBlock :=
  opaqueCallMethod_unregistered nullReply sampleBlock "out0" [Object.scalar 1]
    (by rfl)
    (by
      intro out hout
      have h : mapFind "out0" sampleBlock._actor.outputs
          = some { name := "out0", dtype := "float32", domain := "", isSignal := false,
                   postedLabels := [], postedMessages := [] } := by rfl
      rw [h] at hout
      cases hout
      rfl)

/-! ## Port allocation -/

theorem allocateInput_calls (b : Block) (name : String) (dtype : DType) (domain : String) :
    (WorkerActor.allocateInput b name dtype domain)._calls = b._calls := by
  unfold WorkerActor.allocateInput
  cases mapFind name b._actor.inputs <;> rfl

theorem allocateInput_outputs (b : Block) (name : String) (dtype : DType) (domain : String) :
    (WorkerActor.allocateInput b name dtype domain)._actor.outputs = b._actor.outputs ∧
    (WorkerActor.allocateInput b name dtype domain)._outputPortNames = b._outputPortNames := by
  unfold WorkerActor.allocateInput
  cases mapFind name b._actor.inputs <;> exact ⟨rfl, rfl⟩

theorem allocateInput_find_self (b : Block) (name : String) (dtype : DType) (domain : String) :
    ∃ port, mapFind name (WorkerActor.allocateInput b name dtype domain)._actor.inputs = some port := by
  unfold WorkerActor.allocateInput
  cases h : mapFind name b._actor.inputs with
  | some port => exact ⟨port, h⟩
  | none => exact ⟨_, mapFind_mapSet_self _ _ _⟩

theorem allocateInput_find_other (b : Block) (name other : String) (dtype : DType) (domain : String)
    (h : other ≠ name) :
    mapFind other (WorkerActor.allocateInput b name dtype domain)._actor.inputs
      = mapFind other b._actor.inputs := by
  unfold WorkerActor.allocateInput
  cases mapFind name b._actor.inputs with
  | some port => rfl
  | none => exact mapFind_mapSet_other _ _ _ _ h

theorem allocateSlot_calls (b : Block) (name : String) :
    (WorkerActor.allocateSlot b name)._calls = b._calls := by
  simp [WorkerActor.allocateSlot, allocateInput_calls]

theorem allocateSlot_outputs (b : Block) (name : String) :
    (WorkerActor.allocateSlot b name)._actor.outputs = b._actor.outputs ∧
    (WorkerActor.allocateSlot b name)._outputPortNames = b._outputPortNames := by
  simp [WorkerActor.allocateSlot, allocateInput_outputs]

theorem allocateSlot_find_self (b : Block) (name : String) :
    ∃ port, mapFind name (WorkerActor.allocateSlot b name)._actor.inputs = some port ∧
      port.isSlot = true := by
  obtain ⟨port, hport⟩ := allocateInput_find_self b name "" ""
  refine ⟨{ port with isSlot := true }, ?_, rfl⟩
  simp [WorkerActor.allocateSlot, mapFind_mapModify_self, hport]

theorem allocateSlot_find_other (b : Block) (name other : String) (h : other ≠ name) :
    mapFind other (WorkerActor.allocateSlot b name)._actor.inputs = mapFind other b._actor.inputs := by
  simp [WorkerActor.allocateSlot, mapFind_mapModify_other _ _ _ _ h,
    allocateInput_find_other _ _ _ _ _ h]

/-! ## The callable registry -/

theorem registerCallable_calls (b : Block) (name : String) (call : Callable) :
    (b.registerCallable name call)._calls = mapSet name call b._calls := by
  unfold Block.registerCallable
  by_cases h : call.getNumArgs > 0
  · simp [h, Block.registerSlot, allocateSlot_calls]
  · simp [h]

theorem registerCallable_keeps_slots (b : Block) (name : String) (call : Callable)
    (hb : CallsHaveSlots b) : CallsHaveSlots (b.registerCallable name call) := by
  intro n c hfind hargs
  rw [registerCallable_calls] at hfind
  by_cases hn : n = name
  · subst hn
    rw [mapFind_mapSet_self] at hfind
    cases hfind
    have hpos : call.getNumArgs > 0 := hargs
    simp only [Block.registerCallable, hpos, if_true, Block.registerSlot]
    exact allocateSlot_find_self _ _
  · rw [mapFind_mapSet_other _ _ _ _ hn] at hfind
    obtain ⟨port, hport, hslot⟩ := hb n c hfind hargs
    refine ⟨port, ?_, hslot⟩
    by_cases hpos : call.getNumArgs > 0
    · simp only [Block.registerCallable, hpos, if_true, Block.registerSlot]
      rw [allocateSlot_find_other _ _ _ hn]
      exact hport
    · simp only [Block.registerCallable, hpos, if_false]
      exact hport

theorem registerAll_keeps_slots (regs : List (String × Callable)) (b : Block)
    (hb : CallsHaveSlots b) : CallsHaveSlots (registerAll b regs) := by
  induction regs generalizing b with
  | nil => exact hb
  | cons reg rest ih =>
    exact ih (b.registerCallable reg.1 reg.2) (registerCallable_keeps_slots b reg.1 reg.2 hb)

/-- C2: `registerCallable(name, call)` stores the handle in the registry
under `name`.  When the handle takes at least one argument it goes on to
`registerSlot(name)`, after which a slot-flagged input port `name` exists;
when it takes none, the actor with its port tables and both port-name lists
are what they were.  Hence every block reached from a fresh one by
`registerCallable` calls has a slot for each registered call with one or
more arguments. -/
theorem registerCallable_slot (b : Block) (name : String) (call : Callable) :
    mapFind name (b.registerCallable name call)._calls = some call ∧
    (0 < call.getNumArgs →
      b.registerCallable name call
        = Block.registerSlot { b with _calls := mapSet name call b._calls } name ∧
      ∃ port, mapFind name (b.registerCallable name call)._actor.inputs = some port ∧
        port.isSlot = true) ∧
    (call.getNumArgs = 0 →
      (b.registerCallable name call)._actor = b._actor ∧
      (b.registerCallable name call)._inputPortNames = b._inputPortNames ∧
      (b.registerCallable name call)._outputPortNames = b._outputPortNames) ∧
    (∀ (pool : ThreadPool) (address : Nat) (regs : List (String × Callable)),
      CallsHaveSlots (registerAll (Block.fresh pool address) regs)) := by
  refine ⟨?_, ?_, ?_, ?_⟩
  · rw [registerCallable_calls, mapFind_mapSet_self]
  · intro hpos
    have hpos2 : call.getNumArgs > 0 := hpos
    refine ⟨by simp [Block.registerCallable, hpos2], ?_⟩
    simp only [Block.registerCallable, hpos2, if_true, Block.registerSlot]
    exact allocateSlot_find_self _ _
  · intro hzero
    simp [Block.registerCallable, hzero]
  · intro pool address regs
    apply registerAll_keeps_slots
    intro n c hfind
    simp [Block.fresh, mapFind] at hfind

/-- C2 at the sample block: registering the one-argument `setGain` on a
fresh block creates the slot `setGain`, and the sample block, reached by
registrations, has a slot for `setGain`. -/
theorem registerCallable_slot_witness :
    (∃ port, mapFind "setGain"
        ((Block.fresh globalPool 0).registerCallable "setGain" setGainHandle)._actor.inputs = some port ∧
      port.isSlot = true) ∧
    ∃ port, mapFind "setGain"
        (registerAll (Block.fresh globalPool 0)
          [("setGain", setGainHandle), ("getGain", getGainHandle)])._actor.inputs = some port ∧
      port.isSlot = true :=
  ⟨((registerCallable_slot (Block.fresh globalPool 0) "setGain" setGainHandle).2.1 (by decide)).2,
   (registerCallable_slot (Block.fresh globalPool 0) "setGain" setGainHandle).2.2.2 globalPool 0
      [("setGain", setGainHandle), ("getGain", getGainHandle)] "setGain" setGainHandle
      (by rfl) (by decide)⟩

/-! ## Port reflection -/

theorem allocateOutput_inputs (b : Block) (name : String) (dtype : DType) (domain : String) :
    (WorkerActor.allocateOutput b name dtype domain)._actor.inputs = b._actor.inputs ∧
    (WorkerActor.allocateOutput b name dtype domain)._inputPortNames = b._inputPortNames := by
  unfold WorkerActor.allocateOutput
  cases mapFind name b._actor.outputs <;> exact ⟨rfl, rfl⟩

theorem inputsDeclared_allocateInput (b : Block) (decls : List (String × DType × String))
    (name : String) (dtype : DType) (domain : String)
    (hb : InputsDeclared b decls) (hnew : name ∉ decls.map Prod.fst) :
    InputsDeclared (WorkerActor.allocateInput b name dtype domain) (decls ++ [(name, dtype, domain)]) := by
  obtain ⟨hnames, hports, hnone⟩ := hb
  have hfree : mapFind name b._actor.inputs = none := hnone name hnew
  unfold WorkerActor.allocateInput
  rw [hfree]
  refine ⟨by simp [hnames], ?_, ?_⟩
  · intro decl hdecl
    rcases List.mem_append.mp hdecl with hold | hlast
    · have hne : decl.1 ≠ name := by
        intro heq
        exact hnew (heq ▸ List.mem_map_of_mem Prod.fst hold)
      show mapFind decl.1 (mapSet name _ b._actor.inputs) = _
      rw [mapFind_mapSet_other _ _ _ _ hne]
      exact hports decl hold
    · have hd : decl = (name, dtype, domain) := by simpa using hlast
      subst hd
      exact mapFind_mapSet_self _ _ _
  · intro other hother
    have hne : other ≠ name := by
      intro heq
      exact hother (by simp [heq])
    have hold : other ∉ decls.map Prod.fst := by
      intro hmem
      exact hother (by simp only [List.map_append, List.mem_append]; exact Or.inl hmem)
    show mapFind other (mapSet name _ b._actor.inputs) = none
    rw [mapFind_mapSet_other _ _ _ _ hne]
    exact hnone other hold

theorem outputsDeclared_allocateOutput (b : Block) (decls : List (String × DType × String))
    (name : String) (dtype : DType) (domain : String)
    (hb : OutputsDeclared b decls) (hnew : name ∉ decls.map Prod.fst) :
    OutputsDeclared (WorkerActor.allocateOutput b name dtype domain) (decls ++ [(name, dtype, domain)]) := by
  obtain ⟨hnames, hports, hnone⟩ := hb
  have hfree : mapFind name b._actor.outputs = none := hnone name hnew
  unfold WorkerActor.allocateOutput
  rw [hfree]
  refine ⟨by simp [hnames], ?_, ?_⟩
  · intro decl hdecl
    rcases List.mem_append.mp hdecl with hold | hlast
    · have hne : decl.1 ≠ name := by
        intro heq
        exact hnew (heq ▸ List.mem_map_of_mem Prod.fst hold)
      show mapFind decl.1 (mapSet name _ b._actor.outputs) = _
      rw [mapFind_mapSet_other _ _ _ _ hne]
      exact hports decl hold
    · have hd : decl = (name, dtype, domain) := by simpa using hlast
      subst hd
      exact mapFind_mapSet_self _ _ _
  · intro other hother
    have hne : other ≠ name := by
      intro heq
      exact hother (by simp [heq])
    have hold : other ∉ decls.map Prod.fst := by
      intro hmem
      exact hother (by simp only [List.map_append, List.mem_append]; exact Or.inl hmem)
    show mapFind other (mapSet name _ b._actor.outputs) = none
    rw [mapFind_mapSet_other _ _ _ _ hne]
    exact hnone other hold

theorem inputsDeclared_allocateOutput (b : Block) (decls : List (String × DType × String))
    (name : String) (dtype : DType) (domain : String) (hb : InputsDeclared b decls) :
    InputsDeclared (WorkerActor.allocateOutput b name dtype domain) decls := by
  obtain ⟨h1, h2⟩ := allocateInput_outputs b name dtype domain
  obtain ⟨h3, h4⟩ := allocateOutput_inputs b name dtype domain
  unfold InputsDeclared
  rw [h3, h4]
  exact hb

theorem outputsDeclared_allocateInput (b : Block) (decls : List (String × DType × String))
    (name : String) (dtype : DType) (domain : String) (hb : OutputsDeclared b decls) :
    OutputsDeclared (WorkerActor.allocateInput b name dtype domain) decls := by
  obtain ⟨h1, h2⟩ := allocateInput_outputs b name dtype domain
  unfold OutputsDeclared
  rw [h1, h2]
  exact hb

theorem setupAll_declared (calls : List SetupCall) :
    ∀ (b : Block) (din dout : List (String × DType × String)),
      InputsDeclared b din → OutputsDeclared b dout →
      (din.map Prod.fst ++ (declaredInputs calls).map Prod.fst).Nodup →
      (dout.map Prod.fst ++ (declaredOutputs calls).map Prod.fst).Nodup →
      InputsDeclared (setupAll b calls) (din ++ declaredInputs calls) ∧
      OutputsDeclared (setupAll b calls) (dout ++ declaredOutputs calls) := by
  induction calls with
  | nil =>
    intro b din dout hin hout _ _
    simpa [setupAll, declaredInputs, declaredOutputs] using And.intro hin hout
  | cons call rest ih =>
    intro b din dout hin hout hdin hdout
    cases call with
    | input name dtype domain =>
      have hnew : name ∉ din.map Prod.fst := by
        intro hmem
        have hdisj := (List.nodup_append.mp hdin).2.2
        exact hdisj hmem (by simp [declaredInputs])
      have hnodup : ((din ++ [(name, dtype, domain)]).map Prod.fst
          ++ (declaredInputs rest).map Prod.fst).Nodup := by
        simpa [declaredInputs, List.append_assoc] using hdin
      have hstep := ih (b.setupInput name dtype domain) (din ++ [(name, dtype, domain)]) dout
        (inputsDeclared_allocateInput b din name dtype domain hin hnew)
        (outputsDeclared_allocateInput b dout name dtype domain hout)
        hnodup (by simpa [declaredOutputs] using hdout)
      simpa [setupAll, SetupCall.run, declaredInputs, declaredOutputs, List.append_assoc] using hstep
    | output name dtype domain =>
      have hnew : name ∉ dout.map Prod.fst := by
        intro hmem
        have hdisj := (List.nodup_append.mp hdout).2.2
        exact hdisj hmem (by simp [declaredOutputs])
      have hnodup : ((dout ++ [(name, dtype, domain)]).map Prod.fst
          ++ (declaredOutputs rest).map Prod.fst).Nodup := by
        simpa [declaredOutputs, List.append_assoc] using hdout
      have hstep := ih (b.setupOutput name dtype domain) din (dout ++ [(name, dtype, domain)])
        (inputsDeclared_allocateOutput b din name dtype domain hin)
        (outputsDeclared_allocateOutput b dout name dtype domain hout hnew)
        (by simpa [declaredInputs] using hdin) hnodup
      simpa [setupAll, SetupCall.run, declaredInputs, declaredOutputs, List.append_assoc] using hstep

theorem inputPortInfoLoop_declared (b : Block) (decls : List (String × DType × String)) :
    ∀ (infos : List PortInfo),
      (∀ decl ∈ decls, mapFind decl.1 b._actor.inputs = some (declaredInput decl)) →
      Block.inputPortInfoLoop b (decls.map Prod.fst) infos
        = Except.ok (infos ++ decls.map declaredInfo) := by
  induction decls with
  | nil => intro infos _; simp [Block.inputPortInfoLoop]
  | cons decl rest ih =>
    intro infos hports
    have hhead := hports decl (List.mem_cons_self _ _)
    have htail := ih (infos ++ [declaredInfo decl])
      (fun d hd => hports d (List.mem_cons_of_mem _ hd))
    simp only [List.map_cons, Block.inputPortInfoLoop, Block.input, hhead]
    simpa [declaredInfo, declaredInput, List.append_assoc] using htail

theorem outputPortInfoLoop_declared (b : Block) (decls : List (String × DType × String)) :
    ∀ (infos : List PortInfo),
      (∀ decl ∈ decls, mapFind decl.1 b._actor.outputs = some (declaredOutput decl)) →
      Block.outputPortInfoLoop b (decls.map Prod.fst) infos
        = Except.ok (infos ++ decls.map declaredInfo) := by
  induction decls with
  | nil => intro infos _; simp [Block.outputPortInfoLoop]
  | cons decl rest ih =>
    intro infos hports
    have hhead := hports decl (List.mem_cons_self _ _)
    have htail := ih (infos ++ [declaredInfo decl])
      (fun d hd => hports d (List.mem_cons_of_mem _ hd))
    simp only [List.map_cons, Block.outputPortInfoLoop, Block.output, hhead]
    simpa [declaredInfo, declaredOutput, List.append_assoc] using htail

theorem fresh_declared (pool : ThreadPool) (address : Nat) :
    InputsDeclared (Block.fresh pool address) [] ∧ OutputsDeclared (Block.fresh pool address) [] := by
  refine ⟨⟨rfl, ?_, ?_⟩, ⟨rfl, ?_, ?_⟩⟩ <;> intros <;> simp_all [Block.fresh, WorkerActor.fresh, mapFind]

theorem inputPortInfoLoop_entries (b : Block) (entries : List (String × InputPort)) :
    ∀ (infos : List PortInfo),
      (∀ entry ∈ entries, mapFind entry.1 b._actor.inputs = some entry.2) →
      Block.inputPortInfoLoop b (entries.map Prod.fst) infos
        = Except.ok (infos ++ entries.map
            (fun entry => { name := entry.1, isSigSlot := entry.2.isSlot, dtype := entry.2.dtype })) := by
  induction entries with
  | nil => intro infos _; simp [Block.inputPortInfoLoop]
  | cons entry rest ih =>
    intro infos hports
    have hhead := hports entry (List.mem_cons_self _ _)
    have htail := ih (infos ++ [{ name := entry.1, isSigSlot := entry.2.isSlot, dtype := entry.2.dtype }])
      (fun e he => hports e (List.mem_cons_of_mem _ he))
    simp only [List.map_cons, Block.inputPortInfoLoop, Block.input, hhead]
    simpa [List.append_assoc] using htail

theorem outputPortInfoLoop_entries (b : Block) (entries : List (String × OutputPort)) :
    ∀ (infos : List PortInfo),
      (∀ entry ∈ entries, mapFind entry.1 b._actor.outputs = some entry.2) →
      Block.outputPortInfoLoop b (entries.map Prod.fst) infos
        = Except.ok (infos ++ entries.map
            (fun entry => { name := entry.1, isSigSlot := entry.2.isSignal, dtype := entry.2.dtype })) := by
  induction entries with
  | nil => intro infos _; simp [Block.outputPortInfoLoop]
  | cons entry rest ih =>
    intro infos hports
    have hhead := hports entry (List.mem_cons_self _ _)
    have htail := ih (infos ++ [{ name := entry.1, isSigSlot := entry.2.isSignal, dtype := entry.2.dtype }])
      (fun e he => hports e (List.mem_cons_of_mem _ he))
    simp only [List.map_cons, Block.outputPortInfoLoop, Block.output, hhead]
    simpa [List.append_assoc] using htail

theorem registerSlot_declared (b : Block) (decls : List (String × DType × String)) (name : String)
    (hb : InputsDeclared b decls) (hmem : name ∈ decls.map Prod.fst) :
    (b.registerSlot name).inputPortInfo
      = (Except.ok (decls.map
          (fun decl => { name := decl.1, isSigSlot := decide (decl.1 = name), dtype := decl.2.1 })),
         b.registerSlot name) := by
  obtain ⟨hnames, hports, _⟩ := hb
  obtain ⟨found, hfound, hname⟩ := List.mem_map.mp hmem
  have hpresent : mapFind name b._actor.inputs = some (declaredInput found) := by
    rw [← hname]
    exact hports found hfound
  have hkeep : WorkerActor.allocateInput b name "" "" = b := by
    simp [WorkerActor.allocateInput, hpresent]
  have hnames2 : (b.registerSlot name)._inputPortNames
      = (decls.map (fun decl => (decl.1,
          (if decl.1 = name then { declaredInput decl with isSlot := true }
           else declaredInput decl : InputPort)))).map Prod.fst := by
    simp [Block.registerSlot, WorkerActor.allocateSlot, hkeep, hnames, List.map_map, Function.comp_def]
  have hloop := inputPortInfoLoop_entries (b.registerSlot name)
    (decls.map (fun decl => (decl.1,
      (if decl.1 = name then { declaredInput decl with isSlot := true }
       else declaredInput decl : InputPort)))) []
    (by
      intro entry hentry
      obtain ⟨decl, hdecl, hentry2⟩ := List.mem_map.mp hentry
      subst hentry2
      simp only [Block.registerSlot, WorkerActor.allocateSlot, hkeep]
      by_cases hsame : decl.1 = name
      · rw [hsame, mapFind_mapModify_self, ← hsame, hports decl hdecl]
        simp
      · rw [mapFind_mapModify_other _ _ _ _ hsame, hports decl hdecl]
        simp [hsame])
  unfold Block.inputPortInfo
  rw [hnames2, hloop]
  refine congrArg (fun infos => (Except.ok infos, b.registerSlot name)) ?_
  simp only [List.nil_append, List.map_map]
  apply List.map_congr_left
  intro decl _
  by_cases hsame : decl.1 = name <;> simp [Function.comp_def, hsame, declaredInput]

theorem registerSignal_declared (b : Block) (decls : List (String × DType × String)) (name : String)
    (hb : OutputsDeclared b decls) (hmem : name ∈ decls.map Prod.fst) :
    (b.registerSignal name).outputPortInfo
      = (Except.ok (decls.map
          (fun decl => { name := decl.1, isSigSlot := decide (decl.1 = name), dtype := decl.2.1 })),
         b.registerSignal name) := by
  obtain ⟨hnames, hports, _⟩ := hb
  obtain ⟨found, hfound, hname⟩ := List.mem_map.mp hmem
  have hpresent : mapFind name b._actor.outputs = some (declaredOutput found) := by
    rw [← hname]
    exact hports found hfound
  have hkeep : WorkerActor.allocateOutput b name "" "" = b := by
    simp [WorkerActor.allocateOutput, hpresent]
  have hnames2 : (b.registerSignal name)._outputPortNames
      = (decls.map (fun decl => (decl.1,
          (if decl.1 = name then { declaredOutput decl with isSignal := true }
           else declaredOutput decl : OutputPort)))).map Prod.fst := by
    simp [Block.registerSignal, WorkerActor.allocateSignal, hkeep, hnames, List.map_map,
      Function.comp_def]
  have hloop := outputPortInfoLoop_entries (b.registerSignal name)
    (decls.map (fun decl => (decl.1,
      (if decl.1 = name then { declaredOutput decl with isSignal := true }
       else declaredOutput decl : OutputPort)))) []
    (by
      intro entry hentry
      obtain ⟨decl, hdecl, hentry2⟩ := List.mem_map.mp hentry
      subst hentry2
      simp only [Block.registerSignal, WorkerActor.allocateSignal, hkeep]
      by_cases hsame : decl.1 = name
      · rw [hsame, mapFind_mapModify_self, ← hsame, hports decl hdecl]
        simp
      · rw [mapFind_mapModify_other _ _ _ _ hsame, hports decl hdecl]
        simp [hsame])
  unfold Block.outputPortInfo
  rw [hnames2, hloop]
  refine congrArg (fun infos => (Except.ok infos, b.registerSignal name)) ?_
  simp only [List.nil_append, List.map_map]
  apply List.map_congr_left
  intro decl _
  by_cases hsame : decl.1 = name <;> simp [Function.comp_def, hsame, declaredOutput]

/-- C3: after any sequence of `setupInput` / `setupOutput` calls (by name or
by index) on a fresh block whose names are pairwise distinct per direction,
`inputPortInfo()` returns exactly one descriptor per declared input, in
declaration order, with the name and dtype given at setup, and
`outputPortInfo()` does the same for the outputs; both queries leave the
block as it was.  Each descriptor's `isSigSlot` is the slot flag (resp.
signal flag) of the port of that name: cleared for a port as declared, set
in the descriptor of a declared port that `registerSlot` (resp.
`registerSignal`) has flagged since, and, for every block whatever its
history, equal to the flag of the port the name list points to, together
with that port's dtype. -/
theorem portInfo_declaration_order (pool : ThreadPool) (address : Nat) (calls : List SetupCall)
    (hin : ((declaredInputs calls).map Prod.fst).Nodup)
    (hout : ((declaredOutputs calls).map Prod.fst).Nodup) :
    (setupAll (Block.fresh pool address) calls).inputPortInfo
      = (Except.ok ((declaredInputs calls).map declaredInfo),
         setupAll (Block.fresh pool address) calls) ∧
    (setupAll (Block.fresh pool address) calls).outputPortInfo
      = (Except.ok ((declaredOutputs calls).map declaredInfo),
         setupAll (Block.fresh pool address) calls) ∧
    (∀ decl ∈ declaredInputs calls, ∃ port,
      (setupAll (Block.fresh pool address) calls).input decl.1 = Except.ok port ∧
      port.isSlot = (declaredInfo decl).isSigSlot ∧ port.dtype = decl.2.1 ∧ port.name = decl.1) ∧
    (∀ decl ∈ declaredOutputs calls, ∃ port,
      (setupAll (Block.fresh pool address) calls).output decl.1 = Except.ok port ∧
      port.isSignal = (declaredInfo decl).isSigSlot ∧ port.dtype = decl.2.1 ∧ port.name = decl.1) ∧
    (∀ name ∈ (declaredInputs calls).map Prod.fst,
      ((setupAll (Block.fresh pool address) calls).registerSlot name).inputPortInfo
        = (Except.ok ((declaredInputs calls).map
            (fun decl => { name := decl.1, isSigSlot := decide (decl.1 = name), dtype := decl.2.1 })),
           (setupAll (Block.fresh pool address) calls).registerSlot name)) ∧
    (∀ name ∈ (declaredOutputs calls).map Prod.fst,
      ((setupAll (Block.fresh pool address) calls).registerSignal name).outputPortInfo
        = (Except.ok ((declaredOutputs calls).map
            (fun decl => { name := decl.1, isSigSlot := decide (decl.1 = name), dtype := decl.2.1 })),
           (setupAll (Block.fresh pool address) calls).registerSignal name)) ∧
    (∀ (b : Block) (entries : List (String × InputPort)),
      b._inputPortNames = entries.map Prod.fst →
      (∀ entry ∈ entries, mapFind entry.1 b._actor.inputs = some entry.2) →
      b.inputPortInfo
        = (Except.ok (entries.map
            (fun entry => { name := entry.1, isSigSlot := entry.2.isSlot, dtype := entry.2.dtype })),
           b)) ∧
    (∀ (b : Block) (entries : List (String × OutputPort)),
      b._outputPortNames = entries.map Prod.fst →
      (∀ entry ∈ entries, mapFind entry.1 b._actor.outputs = some entry.2) →
      b.outputPortInfo
        = (Except.ok (entries.map
            (fun entry => { name := entry.1, isSigSlot := entry.2.isSignal, dtype := entry.2.dtype })),
           b)) ∧
    (∀ (b : Block) (index : Nat) (dtype : DType) (domain : String),
      b.setupInputIndex index dtype domain
        = SetupCall.run b (SetupCall.inputIndex index dtype domain) ∧
      b.setupOutputIndex index dtype domain
        = SetupCall.run b (SetupCall.outputIndex index dtype domain)) := by
  obtain ⟨hfin, hfout⟩ := fresh_declared pool address
  obtain ⟨hdin, hdout⟩ :=
    setupAll_declared calls (Block.fresh pool address) [] [] hfin hfout
      (by simpa using hin) (by simpa using hout)
  simp only [List.nil_append] at hdin hdout
  have hinames := hdin.1
  have hiports := hdin.2.1
  have honames := hdout.1
  have hoports := hdout.2.1
  refine ⟨?_, ?_, ?_, ?_, ?_, ?_, ?_, ?_, ?_⟩
  · simp only [Block.inputPortInfo, hinames]
    rw [inputPortInfoLoop_declared _ _ [] hiports]
    simp
  · simp only [Block.outputPortInfo, honames]
    rw [outputPortInfoLoop_declared _ _ [] hoports]
    simp
  · intro decl hdecl
    exact ⟨declaredInput decl, by simp [Block.input, hiports decl hdecl], rfl, rfl, rfl⟩
  · intro decl hdecl
    exact ⟨declaredOutput decl, by simp [Block.output, hoports decl hdecl], rfl, rfl, rfl⟩
  · intro name hname
    exact registerSlot_declared _ _ name hdin hname
  · intro name hname
    exact registerSignal_declared _ _ name hdout hname
  · intro b entries hnames hports
    simp only [Block.inputPortInfo, hnames]
    rw [inputPortInfoLoop_entries _ _ [] hports]
    simp
  · intro b entries hnames hports
    simp only [Block.outputPortInfo, hnames]
    rw [outputPortInfoLoop_entries _ _ [] hports]
    simp
  · intro b index dtype domain
    exact ⟨rfl, rfl⟩

/-- C3 on concrete blocks: a declaration sequence with inputs `in0`, `0` and
outputs `out0`, `1`, interleaved; the same sequence with input `0` made a
slot afterwards; and the sample block, whose slot `setGain` and signal
`changed` are reported with the flag set next to the plain ports. -/
theorem portInfo_declaration_order_witness :
    (setupAll (Block.fresh globalPool 0)
        [SetupCall.input "in0" "float32" "", SetupCall.output "out0" "float32" "",
         SetupCall.inputIndex 0 "byte" "", SetupCall.outputIndex 1 "int" ""]).inputPortInfo.1
      = Except.ok [{ name := "in0", isSigSlot := false, dtype := "float32" },
                   { name := "0", isSigSlot := false, dtype := "byte" }] ∧
    (setupAll (Block.fresh globalPool 0)
        [SetupCall.input "in0" "float32" "", SetupCall.output "out0" "float32" "",
         SetupCall.inputIndex 0 "byte" "", SetupCall.outputIndex 1 "int" ""]).outputPortInfo.1
      = Except.ok [{ name := "out0", isSigSlot := false, dtype := "float32" },
                   { name := "1", isSigSlot := false, dtype := "int" }] ∧
    ((setupAll (Block.fresh globalPool 0)
        [SetupCall.input "in0" "float32" "", SetupCall.output "out0" "float32" "",
         SetupCall.inputIndex 0 "byte" "", SetupCall.outputIndex 1 "int" ""]).registerSlot
        "0").inputPortInfo.1
      = Except.ok [{ name := "in0", isSigSlot := false, dtype := "float32" },
                   { name := "0", isSigSlot := true, dtype := "byte" }] ∧
    sampleBlock.inputPortInfo.1
      = Except.ok [{ name := "in0", isSigSlot := false, dtype := "float32" },
                   { name := "setGain", isSigSlot := true, dtype := "" }] ∧
    sampleBlock.outputPortInfo.1
      = Except.ok [{ name := "out0", isSigSlot := false, dtype := "float32" },
                   { name := "changed", isSigSlot := true, dtype := "" }] :=
  have h := portInfo_declaration_order globalPool 0
    [SetupCall.input "in0" "float32" "", SetupCall.output "out0" "float32" "",
     SetupCall.inputIndex 0 "byte" "", SetupCall.outputIndex 1 "int" ""]
    (by decide) (by decide)
  ⟨congrArg Prod.fst h.1, congrArg Prod.fst h.2.1,
   (congrArg Prod.fst (h.2.2.2.2.1 "0" (by decide))).trans (by rfl),
   congrArg Prod.fst (h.2.2.2.2.2.2.1 sampleBlock
     [("in0", { name := "in0", dtype := "float32", domain := "", isSlot := false, labels := [] }),
      ("setGain", { name := "setGain", dtype := "", domain := "", isSlot := true, labels := [] })]
     (by rfl)
     (by
       intro entry hentry
       simp only [List.mem_cons, List.mem_singleton, List.not_mem_nil, or_false] at hentry
       rcases hentry with hentry | hentry <;> subst hentry <;> rfl)),
   congrArg Prod.fst (h.2.2.2.2.2.2.2.1 sampleBlock
     [("out0", { name := "out0", dtype := "float32", domain := "", isSignal := false,
                 postedLabels := [], postedMessages := [] }),
      ("changed", { name := "changed", dtype := "", domain := "", isSignal := true,
                    postedLabels := [], postedMessages := [] })]
     (by rfl)
     (by
       intro entry hentry
       simp only [List.mem_cons, List.mem_singleton, List.not_mem_nil, or_false] at hentry
       rcases hentry with hentry | hentry <;> subst hentry <;> rfl))⟩

/-! ## Label propagation -/

theorem foldl_postLabel (labels : List Label) :
    ∀ (out : OutputPort),
      labels.foldl OutputPort.postLabel out
        = { out with postedLabels := out.postedLabels ++ labels } := by
  induction labels with
  | nil => intro out; simp
  | cons label rest ih =>
    intro out
    simp [List.foldl_cons, ih, OutputPort.postLabel, List.append_assoc]

theorem mapFind_map_values {α : Type} (f : α → α) (name : String) (m : List (String × α)) :
    mapFind name (m.map (fun entry => (entry.1, f entry.2))) = (mapFind name m).map f := by
  induction m with
  | nil => simp [mapFind]
  | cons entry rest ih =>
    obtain ⟨k, v⟩ := entry
    by_cases h : name = k
    · simp [mapFind, h]
    · simp [mapFind, h, ih]

/-- C4: one call `propagateLabels(input)`, the input port holding the labels
L1..Ln, leaves every output port of the block with exactly L1..Ln appended,
in that order and once each, to the labels it had been posted before, and
changes nothing else of any output port; the set and order of the output
ports, the input ports (and so the label queue read), the registry and the
port-name lists are what they were. -/
theorem propagateLabels_posts (b : Block) (input : InputPort) :
    (b.propagateLabels input)._actor.outputs
      = b._actor.outputs.map
          (fun entry => (entry.1, { entry.2 with postedLabels := entry.2.postedLabels ++ input.labels })) ∧
    (∀ name, mapFind name (b.propagateLabels input)._actor.outputs
      = (mapFind name b._actor.outputs).map
          (fun out => { out with postedLabels := out.postedLabels ++ input.labels })) ∧
    (b.propagateLabels input)._actor.inputs = b._actor.inputs ∧
    (b.propagateLabels input)._calls = b._calls ∧
    (b.propagateLabels input)._inputPortNames = b._inputPortNames ∧
    (b.propagateLabels input)._outputPortNames = b._outputPortNames := by
  have hmap : (b.propagateLabels input)._actor.outputs
      = b._actor.outputs.map
          (fun entry => (entry.1, { entry.2 with postedLabels := entry.2.postedLabels ++ input.labels })) := by
    simp [Block.propagateLabels, foldl_postLabel]
  refine ⟨hmap, ?_, rfl, rfl, rfl, rfl⟩
  intro name
  rw [hmap]
  exact mapFind_map_values
    (fun out => { out with postedLabels := out.postedLabels ++ input.labels }) name b._actor.outputs

/-! ## Signals -/

/-- C5: when `name` is a signal-flagged output port, `opaqueCallMethod`
returns the null object (so never call-not-found), sends nothing to the
actor, and posts exactly one message to that port, the argument list in the
given order; no other port, no input and no registry entry changes.  No
registered handle takes part: the outcome is the same whatever the registry
holds (an entry called `name` or none) and whatever the actor would reply. -/
theorem opaqueCallMethod_signal (waitInfo : OpaqueCallMessage → OpaqueCallResultMessage)
    (b : Block) (name : String) (inputArgs : ObjectVector) (out : OutputPort)
    (hout : mapFind name b._actor.outputs = some out) (hsignal : out.isSignal = true) :
    (b.opaqueCallMethod waitInfo name inputArgs).result = Except.ok Object.null ∧
    (b.opaqueCallMethod waitInfo name inputArgs).sent = [] ∧
    mapFind name (b.opaqueCallMethod waitInfo name inputArgs).block._actor.outputs
      = some { out with postedMessages := out.postedMessages ++ [Object.vector inputArgs] } ∧
    (∀ other, other ≠ name →
      mapFind other (b.opaqueCallMethod waitInfo name inputArgs).block._actor.outputs
        = mapFind other b._actor.outputs) ∧
    (b.opaqueCallMethod waitInfo name inputArgs).block._actor.inputs = b._actor.inputs ∧
    (b.opaqueCallMethod waitInfo name inputArgs).block._calls = b._calls ∧
    (∀ (calls : List (String × Callable)) (reply : OpaqueCallMessage → OpaqueCallResultMessage),
      (Block.opaqueCallMethod reply { b with _calls := calls } name inputArgs).result
        = (b.opaqueCallMethod waitInfo name inputArgs).result ∧
      (Block.opaqueCallMethod reply { b with _calls := calls } name inputArgs).sent = [] ∧
      (Block.opaqueCallMethod reply { b with _calls := calls } name inputArgs).block._actor
        = (b.opaqueCallMethod waitInfo name inputArgs).block._actor) := by
  have hfilter : (mapFind name b._actor.outputs).filter (fun o => o.isSignal) = some out := by
    simp [hout, Option.filter, hsignal]
  refine ⟨?_, ?_, ?_, ?_, ?_, ?_, ?_⟩
  · simp [Block.opaqueCallMethod, hfilter]
  · simp [Block.opaqueCallMethod, hfilter]
  · simp only [Block.opaqueCallMethod, hfilter]
    simp [mapFind_mapModify_self, hout, OutputPort.postMessage]
  · intro other hother
    simp only [Block.opaqueCallMethod, hfilter]
    simp [mapFind_mapModify_other _ _ _ _ hother]
  · simp [Block.opaqueCallMethod, hfilter]
  · simp [Block.opaqueCallMethod, hfilter]
  · intro calls reply
    simp [Block.opaqueCallMethod, hfilter]

/-- C5 at the sample block: calling the signal `changed` with two arguments. -/
theorem opaqueCallMethod_signal_witness :
    (sampleBlock.opaqueCallMethod nullReply "changed" [Object.scalar 1, Object.scalar 2]).result
      = Except.ok Object.null ∧
    (sampleBlock.opaqueCallMethod nullReply "changed" [Object.scalar 1, Object.scalar 2]).sent = [] ∧
    mapFind "changed"
        (sampleBlock.opaqueCallMethod nullReply "changed"
          [Object.scalar 1, Object.scalar 2]).block._actor.outputs
      = some { name := "changed", dtype := "", domain := "", isSignal := true, postedLabels := [],
               postedMessages := [Object.vector [Object.scalar 1, Object.scalar 2]] } :=
  have h := opaqueCallMethod_signal nullReply sampleBlock "changed" [Object.scalar 1, Object.scalar 2]
    { name := "changed", dtype := "", domain := "", isSignal := true, postedLabels := [],
      postedMessages := [] } (by rfl) (by rfl)
  ⟨h.1, h.2.1, h.2.2.1⟩

/-! ## Thread-pool rebinding -/

/-- C6: `setThreadPool(pool)` with `pool` equal to the current pool, equality
being that of the underlying contexts, returns normally and changes
nothing: binding, actor (identity, ports and flags), registry and port-name
lists are the same, and so is the actor bookkeeping, so no actor was
constructed or released. -/
theorem setThreadPool_same_pool (failure : ThreadPool → Option Exception) (b : Block)
    (heap : ActorHeap) (threadPool : ThreadPool)
    (hsame : ThreadPool.eq b._threadPool threadPool = true) :
    b.setThreadPool failure heap threadPool = (Except.ok (), b, heap) ∧
    (b.setThreadPool failure heap threadPool).2.1._actor.address = b._actor.address ∧
    (b.setThreadPool failure heap threadPool).2.1.getThreadPool = b.getThreadPool ∧
    (b.setThreadPool failure heap threadPool).2.2.nextAddress = heap.nextAddress ∧
    (b.setThreadPool failure heap threadPool).2.2.live = heap.live := by
  have h : b.setThreadPool failure heap threadPool = (Except.ok (), b, heap) := by
    simp [Block.setThreadPool, hsame]
  simp [h]

/-- C6 at the sample block: rebinding to another wrapper of the same context,
even under a construction oracle that fails on other pools. -/
theorem setThreadPool_same_pool_witness :
    sampleBlock.setThreadPool privateFails sampleHeap sharedPool
      = (Except.ok (), sampleBlock, sampleHeap) :=
  (setThreadPool_same_pool privateFails sampleBlock sampleHeap sharedPool (by rfl)).1

/-- C8 as stated fails: when constructing the actor on the requested pool
raises, `setThreadPool` throws that error with `_threadPool` already
assigned (line 26 runs before line 27), so `getThreadPool()` returns the
requested pool and not the prior binding. -/
theorem setThreadPool_failure_rebinds :
    (sampleBlock.setThreadPool privateFails sampleHeap privatePool).1
      = Except.error (Exception.Error "std::bad_alloc") ∧
    (sampleBlock.setThreadPool privateFails sampleHeap privatePool).2.1.getThreadPool = privatePool ∧
    (sampleBlock.setThreadPool privateFails sampleHeap privatePool).2.1.getThreadPool
      ≠ sampleBlock.getThreadPool :=
  ⟨by rfl, by rfl, by decide⟩

/-- C8, amended: if `setThreadPool(pool)` fails, the error is the one raised
by the construction of the new actor on a pool that differs from the prior
one; the block's current actor, its registry and port-name lists are exactly
what they were and no actor was constructed or released, while
`getThreadPool()` returns the requested pool. -/
theorem setThreadPool_failure (failure : ThreadPool → Option Exception) (b : Block)
    (heap : ActorHeap) (threadPool : ThreadPool) (e : Exception)
    (hfail : (b.setThreadPool failure heap threadPool).1 = Except.error e) :
    failure threadPool = some e ∧
    ThreadPool.eq b._threadPool threadPool = false ∧
    (b.setThreadPool failure heap threadPool).2.1._actor = b._actor ∧
    (b.setThreadPool failure heap threadPool).2.2 = heap ∧
    (b.setThreadPool failure heap threadPool).2.1._calls = b._calls ∧
    (b.setThreadPool failure heap threadPool).2.1._inputPortNames = b._inputPortNames ∧
    (b.setThreadPool failure heap threadPool).2.1._outputPortNames = b._outputPortNames ∧
    (b.setThreadPool failure heap threadPool).2.1.getThreadPool = threadPool := by
  cases hsame : ThreadPool.eq b._threadPool threadPool with
  | true => simp [Block.setThreadPool, hsame] at hfail
  | false =>
    cases hcan : failure threadPool with
    | none => simp [Block.setThreadPool, hsame, newWorkerActor, hcan] at hfail
    | some err =>
      have herr : err = e := by
        simpa [Block.setThreadPool, hsame, newWorkerActor, hcan] using hfail
      subst herr
      simp [Block.setThreadPool, hsame, newWorkerActor, hcan, Block.getThreadPool]

/-- C8, amended, at the sample block: a failed move to the private pool. -/
theorem setThreadPool_failure_witness :
    (sampleBlock.setThreadPool privateFails sampleHeap privatePool).2.1._actor = sampleBlock._actor ∧
    (sampleBlock.setThreadPool privateFails sampleHeap privatePool).2.2 = sampleHeap ∧
    (sampleBlock.setThreadPool privateFails sampleHeap privatePool).2.1.getThreadPool = privatePool :=
  have h := setThreadPool_failure privateFails sampleBlock sampleHeap privatePool
    (Exception.Error "std::bad_alloc") (by rfl)
  ⟨h.2.2.1, h.2.2.2.1, h.2.2.2.2.2.2.2⟩

/-! ## The registry as a last-write-wins map -/

theorem mapFind_registerAll (name : String) (regs : List (String × Callable)) :
    ∀ (b : Block), mapFind name (registerAll b regs)._calls
      = match lastRegistered name regs with
        | some call => some call
        | none => mapFind name b._calls := by
  induction regs with
  | nil => intro b; rfl
  | cons reg rest ih =>
    intro b
    obtain ⟨key, call⟩ := reg
    have hstep := ih (b.registerCallable key call)
    simp only [registerAll, List.foldl_cons] at hstep ⊢
    rw [hstep]
    simp only [lastRegistered]
    cases lastRegistered name rest with
    | some later => rfl
    | none =>
      rw [registerCallable_calls]
      by_cases hkey : name = key
      · subst hkey
        simp [mapFind_mapSet_self]
      · simp [mapFind_mapSet_other _ _ _ _ hkey, hkey]

theorem lastRegistered_eq_none (name : String) (regs : List (String × Callable)) :
    lastRegistered name regs = none ↔ name ∉ regs.map Prod.fst := by
  induction regs with
  | nil => simp [lastRegistered]
  | cons reg rest ih =>
    obtain ⟨key, call⟩ := reg
    simp only [lastRegistered, List.map_cons, List.mem_cons, not_or]
    cases hrest : lastRegistered name rest with
    | some later =>
      have hmem : ¬ (name ∉ rest.map Prod.fst) := fun hnot => by
        rw [ih.mpr hnot] at hrest
        cases hrest
      constructor
      · intro h
        cases h
      · intro h
        exact absurd h.2 hmem
    | none =>
      have hnot : name ∉ rest.map Prod.fst := ih.mp hrest
      by_cases hkey : name = key
      · simp [hkey]
      · constructor
        · intro _
          exact ⟨hkey, hnot⟩
        · intro _
          simp [hkey]

/-- C9 as stated fails: with a handle registered under `relay` whose own
body raises a `BlockCallNotFound`, `opaqueCallHandler("relay")` fails with
`BlockCallNotFound` (line 141 lets the handle's error through) although a
handle was registered under that name. -/
theorem opaqueCallHandler_not_found_from_handle :
    "relay" ∈ [("relay", forwardingHandle)].map Prod.fst ∧
    (registerAll (Block.fresh globalPool 0) [("relay", forwardingHandle)]).opaqueCallHandler "relay" []
      = Except.error (Block.callNotFound "remote") ∧
    failsNotFound
      ((registerAll (Block.fresh globalPool 0) [("relay", forwardingHandle)]).opaqueCallHandler
        "relay" []) = true :=
  ⟨by decide, by rfl, by rfl⟩

/-- C9, amended: after any sequence of `registerCallable` calls on a fresh
block the registry maps each name to the handle most recently registered
under it, and to nothing exactly when no handle was ever registered under
it.  `opaqueCallHandler(name, args)` raises its own `BlockCallNotFound` when
no handle was ever registered under `name`; otherwise its outcome, object
or error, is exactly that of invoking the most recently registered handle
on `args`.  So it fails with a `BlockCallNotFound` if and only if no handle
was ever registered under `name` or the most recent handle itself raised
one.  One registration overwrites the entry of its name and leaves the
entries of all other names unchanged. -/
theorem opaqueCallHandler_last_write_wins (pool : ThreadPool) (address : Nat)
    (regs : List (String × Callable)) (name : String) (inputArgs : ObjectVector) :
    mapFind name (registerAll (Block.fresh pool address) regs)._calls = lastRegistered name regs ∧
    (lastRegistered name regs = none ↔ name ∉ regs.map Prod.fst) ∧
    (name ∉ regs.map Prod.fst →
      (registerAll (Block.fresh pool address) regs).opaqueCallHandler name inputArgs
        = Except.error (Block.callNotFound name)) ∧
    (∀ call, lastRegistered name regs = some call →
      (registerAll (Block.fresh pool address) regs).opaqueCallHandler name inputArgs
        = call.opaqueCall inputArgs) ∧
    (failsNotFound ((registerAll (Block.fresh pool address) regs).opaqueCallHandler name inputArgs) = true
      ↔ (name ∉ regs.map Prod.fst ∨
          ∃ call, lastRegistered name regs = some call ∧
            failsNotFound (call.opaqueCall inputArgs) = true)) ∧
    (∀ (b : Block) (key : String) (call : Callable),
      mapFind key (b.registerCallable key call)._calls = some call ∧
      ∀ other, other ≠ key →
        mapFind other (b.registerCallable key call)._calls = mapFind other b._calls) := by
  have hfind : mapFind name (registerAll (Block.fresh pool address) regs)._calls
      = lastRegistered name regs := by
    rw [mapFind_registerAll]
    cases lastRegistered name regs with
    | some call => rfl
    | none => rfl
  have hnone := lastRegistered_eq_none name regs
  refine ⟨hfind, hnone, ?_, ?_, ?_, ?_⟩
  · intro hnever
    simp [Block.opaqueCallHandler, hfind, hnone.mpr hnever]
  · intro call hlast
    simp [Block.opaqueCallHandler, hfind, hlast]
  · cases hlast : lastRegistered name regs with
    | none =>
      have hnever : name ∉ regs.map Prod.fst := hnone.mp hlast
      simp only [Block.opaqueCallHandler, hfind, hlast]
      constructor
      · intro _
        exact Or.inl hnever
      · intro _
        rfl
    | some call =>
      have hmem : ¬ (name ∉ regs.map Prod.fst) := fun hnever => by
        rw [hnone.mpr hnever] at hlast
        cases hlast
      simp only [Block.opaqueCallHandler, hfind, hlast]
      constructor
      · intro hfails
        exact Or.inr ⟨call, rfl, hfails⟩
      · intro h
        rcases h with hnever | ⟨other, hother, hfails⟩
        · exact absurd hnever hmem
        · cases hother
          exact hfails
  · intro b key call
    refine ⟨?_, ?_⟩
    · rw [registerCallable_calls, mapFind_mapSet_self]
    · intro other hother
      rw [registerCallable_calls, mapFind_mapSet_other _ _ _ _ hother]

/-- C9, amended, on a duplicate registration: `getGain` is registered twice
and the later handle answers. -/
theorem opaqueCallHandler_last_write_wins_witness :
    (registerAll (Block.fresh globalPool 0)
        [("getGain", forwardingHandle), ("setGain", setGainHandle),
         ("getGain", getGainHandle)]).opaqueCallHandler "getGain" []
      = Except.ok (Object.scalar 7) ∧
    (registerAll (Block.fresh globalPool 0)
        [("getGain", forwardingHandle), ("setGain", setGainHandle),
         ("getGain", getGainHandle)]).opaqueCallHandler "reset" []
      = Except.error (Block.callNotFound "reset") :=
  ⟨(opaqueCallHandler_last_write_wins globalPool 0
      [("getGain", forwardingHandle), ("setGain", setGainHandle), ("getGain", getGainHandle)]
      "getGain" []).2.2.2.1 getGainHandle (by rfl),
   (opaqueCallHandler_last_write_wins globalPool 0
      [("getGain", forwardingHandle), ("setGain", setGainHandle), ("getGain", getGainHandle)]
      "reset" []).2.2.1 (by decide)⟩

/-! ## The synchronous call bridge -/

/-- C10: for a registered name that is not a signal-flagged output,
`opaqueCallMethod` sends exactly one opaque-call message to the block's
actor, carrying that name and the given arguments, and maps the reply
faithfully: a reply with an error makes it fail with that very error, a
reply without error makes it return exactly the reply's object.  The block
itself is left as it was. -/
theorem opaqueCallMethod_registered (waitInfo : OpaqueCallMessage → OpaqueCallResultMessage)
    (b : Block) (name : String) (inputArgs : ObjectVector) (call : Callable)
    (hcall : mapFind name b._calls = some call)
    (hsignal : ∀ out, mapFind name b._actor.outputs = some out → out.isSignal = false) :
    (b.opaqueCallMethod waitInfo name inputArgs).sent
      = [(b._actor.address,
          { name := name, inputArgs := inputArgs, numArgs := inputArgs.length })] ∧
    (∀ e, (waitInfo { name := name, inputArgs := inputArgs, numArgs := inputArgs.length }).error
        = some e →
      (b.opaqueCallMethod waitInfo name inputArgs).result = Except.error e) ∧
    ((waitInfo { name := name, inputArgs := inputArgs, numArgs := inputArgs.length }).error = none →
      (b.opaqueCallMethod waitInfo name inputArgs).result
        = Except.ok (waitInfo { name := name, inputArgs := inputArgs,
                                numArgs := inputArgs.length }).obj) ∧
    (b.opaqueCallMethod waitInfo name inputArgs).block = b := by
  have hfilter : (mapFind name b._actor.outputs).filter (fun out => out.isSignal) = none := by
    cases hout : mapFind name b._actor.outputs with
    | none => rfl
    | some out => simp [Option.filter, hsignal out hout]
  refine ⟨?_, ?_, ?_, ?_⟩
  · simp only [Block.opaqueCallMethod, hfilter, hcall]
  · intro e herr
    simp only [Block.opaqueCallMethod, hfilter, hcall, herr]
  · intro herr
    simp only [Block.opaqueCallMethod, hfilter, hcall, herr]
  · simp only [Block.opaqueCallMethod, hfilter, hcall]

/-- C10 at the sample block, the actor answering from the registry: the call
`getGain` returns the handle's object, and a handle that raises has its
error re-raised unchanged. -/
theorem opaqueCallMethod_registered_witness :
    (sampleBlock.opaqueCallMethod (WorkerActor.handleOpaqueCall sampleBlock) "getGain" []).result
      = Except.ok (Object.scalar 7) ∧
    ((sampleBlock.registerCallable "relay" forwardingHandle).opaqueCallMethod
        (WorkerActor.handleOpaqueCall (sampleBlock.registerCallable "relay" forwardingHandle))
        "relay" []).result
      = Except.error (Block.callNotFound "remote") :=
  ⟨(opaqueCallMethod_registered (WorkerActor.handleOpaqueCall sampleBlock) sampleBlock "getGain" []
      getGainHandle (by rfl)
      (by
        intro out hout
        have h : mapFind "getGain" sampleBlock._actor.outputs = none := by rfl
        rw [h] at hout
        cases hout)).2.2.1 (by rfl),
   (opaqueCallMethod_registered
      (WorkerActor.handleOpaqueCall (sampleBlock.registerCallable "relay" forwardingHandle))
      (sampleBlock.registerCallable "relay" forwardingHandle) "relay" []
      forwardingHandle (by rfl)
      (by
        intro out hout
        have h : mapFind "relay"
            (sampleBlock.registerCallable "relay" forwardingHandle)._actor.outputs = none := by rfl
        rw [h] at hout
        cases hout)).2.1 (Block.callNotFound "remote") (by rfl)⟩

/-! ## The `--var` option -/

theorem findChar_eq_none (c : Char) (chars : List Char) :
    findChar c chars = none ↔ c ∉ chars := by
  induction chars with
  | nil => simp [findChar]
  | cons x rest ih =>
    by_cases hx : x = c
    · simp [findChar, hx]
    · have hne : ¬ c = x := fun h => hx h.symm
      simp [findChar, hx, hne, ih]

theorem findChar_eq_some (c : Char) (chars : List Char) :
    ∀ pos, findChar c chars = some pos →
      chars = chars.take pos ++ c :: chars.drop (pos + 1) ∧ c ∉ chars.take pos := by
  induction chars with
  | nil => intro pos h; simp [findChar] at h
  | cons x rest ih =>
    intro pos h
    by_cases hx : x = c
    · have hpos : pos = 0 := by simpa [findChar, hx] using h.symm
      subst hpos
      simp [hx]
    · rw [findChar, if_neg hx] at h
      cases hfound : findChar c rest with
      | none => simp [hfound] at h
      | some before =>
      have hpos : before + 1 = pos := by simpa [hfound] using h
      subst hpos
      obtain ⟨hsplit, hfree⟩ := ih before hfound
      have hne : ¬ c = x := fun h => hx h.symm
      refine ⟨?_, ?_⟩
      · simp only [List.take_succ_cons, List.drop_succ_cons, List.cons_append]
        rw [← hsplit]
      · simp [List.take_succ_cons, hne, hfree]

theorem split_at_first_unique (c : Char) :
    ∀ (a a2 b b2 : List Char), c ∉ a → c ∉ a2 → a ++ c :: b = a2 ++ c :: b2 → a = a2 ∧ b = b2 := by
  intro a
  induction a with
  | nil =>
    intro a2 b b2 _ h2 h
    cases a2 with
    | nil => simpa using h
    | cons y rest =>
      simp only [List.nil_append, List.cons_append, List.cons.injEq] at h
      exact absurd (by simp [h.1]) h2
  | cons x rest ih =>
    intro a2 b b2 h1 h2 h
    cases a2 with
    | nil =>
      simp only [List.nil_append, List.cons_append, List.cons.injEq] at h
      exact absurd (by simp [h.1]) h1
    | cons y rest2 =>
      simp only [List.cons_append, List.cons.injEq] at h
      have hrest := ih rest2 b b2 (fun hm => h1 (List.mem_cons_of_mem _ hm))
        (fun hm => h2 (List.mem_cons_of_mem _ hm)) h.2
      exact ⟨by rw [h.1, hrest.1], hrest.2⟩

/-- C12: the option `--var` is declared repeatable, and for every
application state `handleOption("var", value)` does the following.  When
`value` contains a colon it returns normally and appends exactly one pair
`(name, val)` behind the variables stored so far, which keep their order,
every other member staying as it was; `name ++ ":" ++ val` is `value` and
`name` contains no colon, which makes `name` the text before the first
colon and `val` all the text after it (colons included) and determines both.
When `value` contains no colon it throws `InvalidArgumentException` and the
application, its variable list included, is unchanged. -/
theorem handleOption_var (app : PothosUtil) (value : String) :
    varOption.repeatable = true ∧
    (':' ∈ value.data →
      ∃ name val : String,
        app.handleOption "var" value
          = (Except.ok (), { app with _vars := app._vars ++ [(name, val)] }) ∧
        name ++ ":" ++ val = value ∧
        ':' ∉ name.data ∧
        ∀ name2 val2 : String, name2 ++ ":" ++ val2 = value → ':' ∉ name2.data →
          name2 = name ∧ val2 = val) ∧
    (':' ∉ value.data →
      app.handleOption "var" value = (Except.error (cannotParseVar value), app) ∧
      (app.handleOption "var" value).2._vars = app._vars) := by
  have h1 : ¬ ("var" = "help") := by decide
  have h2 : ¬ ("var" = "doc-parse") := by decide
  have h3 : ¬ ("var" = "device-info") := by decide
  have h4 : ¬ ("var" = "run-topology") := by decide
  refine ⟨rfl, ?_, ?_⟩
  · intro hcolon
    cases hfind : findChar ':' value.data with
    | none => exact absurd hcolon ((findChar_eq_none _ _).mp hfind)
    | some pos =>
      obtain ⟨hsplit, hfree⟩ := findChar_eq_some _ _ pos hfind
      refine ⟨String.mk (value.data.take pos), String.mk (value.data.drop (pos + 1)), ?_, ?_, hfree, ?_⟩
      · simp [PothosUtil.handleOption, h1, h2, h3, h4, hfind]
      · apply String.ext
        simp only [String.data_append]
        rw [List.append_assoc]
        exact hsplit.symm
      · intro name2 val2 hjoin hfree2
        have hdata : name2.data ++ ':' :: val2.data
            = value.data.take pos ++ ':' :: value.data.drop (pos + 1) := by
          rw [← hsplit, ← hjoin]
          simp [String.data_append]
        obtain ⟨hn, hv⟩ := split_at_first_unique ':' _ _ _ _ hfree2 hfree hdata
        exact ⟨String.ext hn, String.ext hv⟩
  · intro hnone
    have hfind : findChar ':' value.data = none := (findChar_eq_none _ _).mpr hnone
    simp [PothosUtil.handleOption, h1, h2, h3, h4, hfind]

/-- C12 on a command line `--var=gain:2.5 --var=url:http://host --var=novalue`:
the first two values are stored in order, the second with the colon inside
its value kept, and the third is refused with the variables left alone. -/
theorem handleOption_var_witness :
    (((PothosUtil.construct 4).handleOption "var" "gain:2.5").2.handleOption "var"
        "url:http://host").2._vars
      = [("gain", "2.5"), ("url", "http://host")] ∧
    ((((PothosUtil.construct 4).handleOption "var" "gain:2.5").2.handleOption "var"
        "url:http://host").2.handleOption "var" "novalue").2._vars
      = [("gain", "2.5"), ("url", "http://host")] ∧
    ∃ name val : String, name ++ ":" ++ val = "url:http://host" ∧ ':' ∉ name.data :=
  ⟨by decide,
   ((handleOption_var
      (((PothosUtil.construct 4).handleOption "var" "gain:2.5").2.handleOption "var"
        "url:http://host").2 "novalue").2.2 (by decide)).2.trans (by decide),
   match (handleOption_var (PothosUtil.construct 4) "url:http://host").2.1 (by decide) with
   | ⟨name, val, _, hjoin, hfree, _⟩ => ⟨name, val, hjoin, hfree⟩⟩

/-! ## Destruction -/

theorem waitReply_drains (b : Block) (stats : WorkStats) (receiver : Nat) (last : Envelope)
    (hlast : last.replyTo = receiver) (mailbox : List Envelope)
    (hfresh : ∀ envelope ∈ mailbox, envelope.replyTo ≠ receiver)
    (hrunning : ∀ envelope ∈ mailbox, envelope.message.isShutdown = false) :
    waitReply b stats receiver (mailbox ++ [last])
      = some (mailbox.map (WorkerActor.complete b stats) ++ [WorkerActor.complete b stats last]) := by
  induction mailbox with
  | nil => simp [waitReply, hlast]
  | cons envelope rest ih =>
    have hne := hfresh envelope (List.mem_cons_self _ _)
    have hrun := hrunning envelope (List.mem_cons_self _ _)
    have hrest := ih (fun e he => hfresh e (List.mem_cons_of_mem _ he))
      (fun e he => hrunning e (List.mem_cons_of_mem _ he))
    simp [waitReply, hne, hrun, hrest]

/-- C11: destroying a block whose actor still has the messages of `mailbox`
queued (none of them a shutdown, none addressed to the destructor's own
receiver) returns, and its events are in this order: the shutdown message
is sent to the block's actor; the actor completes and answers every queued
message, in queue order; the actor answers the shutdown to the destructor's
receiver; only then is the actor released.  So the release is the last
event, every message queued ahead of the shutdown has been replied to
before it, and afterwards the actor is no longer live. -/
theorem destructor_drains_mailbox (b : Block) (heap : ActorHeap) (stats : WorkStats)
    (receiver : Nat) (mailbox : List Envelope)
    (hfresh : ∀ envelope ∈ mailbox, envelope.replyTo ≠ receiver)
    (hrunning : ∀ envelope ∈ mailbox, envelope.message.isShutdown = false) :
    b.destructor heap stats receiver mailbox
      = some
          ((Event.sent b._actor.address { replyTo := receiver, message := ActorMessage.shutdownActor }
              :: mailbox.map (WorkerActor.complete b stats)
              ++ [Event.replied receiver ActorReply.shutdownDone])
            ++ [Event.released b._actor.address],
           heap.release b._actor.address) ∧
    (∀ envelope ∈ mailbox,
      WorkerActor.complete b stats envelope
        ∈ Event.sent b._actor.address { replyTo := receiver, message := ActorMessage.shutdownActor }
            :: mailbox.map (WorkerActor.complete b stats)
            ++ [Event.replied receiver ActorReply.shutdownDone]) ∧
    (∀ actor, Event.released actor
        ∉ Event.sent b._actor.address { replyTo := receiver, message := ActorMessage.shutdownActor }
            :: mailbox.map (WorkerActor.complete b stats)
            ++ [Event.replied receiver ActorReply.shutdownDone]) ∧
    b._actor.address ∉ (heap.release b._actor.address).live := by
  refine ⟨?_, ?_, ?_, ?_⟩
  · have hwait := waitReply_drains b stats receiver
      { replyTo := receiver, message := ActorMessage.shutdownActor } rfl mailbox hfresh hrunning
    simp [Block.destructor, hwait, WorkerActor.complete, WorkerActor.handle]
  · intro envelope hmem
    simp only [List.cons_append, List.mem_cons, List.mem_append, List.mem_map]
    exact Or.inr (Or.inl ⟨envelope, hmem, rfl⟩)
  · intro actor hmem
    simp [WorkerActor.complete] at hmem
  · simp [ActorHeap.release]

/-- C11 at the sample block, destroyed with a call and a stats request in
flight: both are answered before the actor at address 0 is released. -/
theorem destructor_drains_mailbox_witness :
    sampleBlock.destructor sampleHeap sampleStats 13 sampleMailbox
      = some
          ([Event.sent 0 { replyTo := 13, message := ActorMessage.shutdownActor },
            Event.replied 11
              (ActorReply.opaqueCallResult { obj := Object.scalar 7, error := none }),
            Event.replied 12 (ActorReply.workStats sampleStats),
            Event.replied 13 ActorReply.shutdownDone,
            Event.released 0],
           { nextAddress := 1, live := [] }) :=
  (destructor_drains_mailbox sampleBlock sampleHeap sampleStats 13 sampleMailbox
    (by decide) (by decide)).1.trans (by rfl)

end Pothos
